import Mathlib

/-!
Verification development for the EasyEats ticket bot.

The definitions below are a shallow embedding of the repository's core:
`src/config.py` (the JSON-backed configuration store and its ticket table),
`src/cogs/tickets.py` (the ticket-creation flow), `src/cogs/ticket_management.py`
(close/delete and the shared authorization check) and `src/utils/core.py`
(transcript search).  Python dicts are modelled as association lists,
the platform collaborator (guild) as the list of ids of its existing
channels and members, and machine interaction (messages, renames, DMs)
as an explicit list of effects.
-/

/-- A ticket record as stored by `Config.add_ticket` (src/config.py:55-68):
a dict with keys `user_id`, `status`, `created_at`, `country`, `group_link`
and `payment_method`. -/
structure Ticket where
  user_id : Nat
  status : String
  created_at : String
  country : String
  group_link : String
  payment_method : String
  deriving DecidableEq

/-- The `data` dict handed to `Config.add_ticket`: the wizard's answers.
`none` models an absent key, so `data.get(key, "")` becomes `getD ""`. -/
structure TicketData where
  created_at : Option String
  country : Option String
  group_link : Option String
  payment_method : Option String
  deriving DecidableEq

/-- Python dict assignment `d[k] = v`: replaces the value of an existing key
in place, otherwise appends the binding. -/
def dictInsert (k : String) (v : Ticket) : List (String × Ticket) → List (String × Ticket)
  | [] => [(k, v)]
  | (k', v') :: rest => if k' = k then (k, v) :: rest else (k', v') :: dictInsert k v rest

/-- Python dict lookup `d.get(k)`. -/
def dictGet (k : String) : List (String × Ticket) → Option Ticket
  | [] => none
  | (k', v') :: rest => if k' = k then some v' else dictGet k rest

/-- Python `del d[k]` (on a dict whose keys are unique). -/
def dictDelete (k : String) : List (String × Ticket) → List (String × Ticket)
  | [] => []
  | (k', v') :: rest => if k' = k then rest else (k', v') :: dictDelete k rest

/-- In-place update `d[k]["status"] = status`. -/
def dictUpdateStatus (k status : String) : List (String × Ticket) → List (String × Ticket)
  | [] => []
  | (k', v') :: rest =>
      if k' = k then (k', { v' with status := status }) :: rest
      else (k', v') :: dictUpdateStatus k status rest

/-- Model of `Config.add_ticket` (src/config.py:55-68): stores a fresh record under
`str(channel_id)` with status `"open"` and the answer fields defaulted to `""`. -/
def add_ticket (tickets : List (String × Ticket)) (channel_id user_id : Nat)
    (data : TicketData) : List (String × Ticket) :=
  dictInsert (toString channel_id)
    { user_id := user_id
      status := "open"
      created_at := data.created_at.getD ""
      country := data.country.getD ""
      group_link := data.group_link.getD ""
      payment_method := data.payment_method.getD "" } tickets

/-- Model of `Config.get_ticket` (src/config.py:70-72). -/
def get_ticket (tickets : List (String × Ticket)) (channel_id : Nat) : Option Ticket :=
  dictGet (toString channel_id) tickets

/-- Model of `Config.update_ticket_status` (src/config.py:74-78): writes the status
field only when the key is present. -/
def update_ticket_status (tickets : List (String × Ticket)) (channel_id : Nat)
    (status : String) : List (String × Ticket) :=
  if (dictGet (toString channel_id) tickets).isSome then
    dictUpdateStatus (toString channel_id) status tickets
  else tickets

/-- Model of `Config.delete_ticket` (src/config.py:80-84): removes the record only
when the key is present. -/
def delete_ticket (tickets : List (String × Ticket)) (channel_id : Nat) :
    List (String × Ticket) :=
  if (dictGet (toString channel_id) tickets).isSome then
    dictDelete (toString channel_id) tickets
  else tickets

theorem dictGet_dictInsert (k : String) (v : Ticket) (ts : List (String × Ticket)) :
    dictGet k (dictInsert k v ts) = some v := by
  induction ts with
  | nil => simp [dictInsert, dictGet]
  | cons hd tl ih =>
      obtain ⟨k', v'⟩ := hd
      by_cases h : k' = k <;> simp [dictInsert, dictGet, h, ih]

theorem dictGet_dictUpdateStatus (k status : String) (ts : List (String × Ticket)) :
    dictGet k (dictUpdateStatus k status ts) =
      (dictGet k ts).map (fun t => { t with status := status }) := by
  induction ts with
  | nil => simp [dictUpdateStatus, dictGet]
  | cons hd tl ih =>
      obtain ⟨k', v'⟩ := hd
      by_cases h : k' = k <;> simp [dictUpdateStatus, dictGet, h, ih]

theorem dictGet_eq_none_of_not_mem (k : String) (ts : List (String × Ticket))
    (h : k ∉ ts.map Prod.fst) : dictGet k ts = none := by
  induction ts with
  | nil => rfl
  | cons hd tl ih =>
      obtain ⟨k', v'⟩ := hd
      simp only [List.map_cons, List.mem_cons] at h
      push_neg at h
      have hk : k' ≠ k := fun hEq => h.1 hEq.symm
      simp [dictGet, hk, ih h.2]

theorem dictGet_dictDelete_of_nodup (k : String) (ts : List (String × Ticket))
    (h : (ts.map Prod.fst).Nodup) : dictGet k (dictDelete k ts) = none := by
  induction ts with
  | nil => simp [dictDelete, dictGet]
  | cons hd tl ih =>
      obtain ⟨k', v'⟩ := hd
      simp only [List.map_cons, List.nodup_cons] at h
      by_cases hk : k' = k
      · subst hk
        simp only [dictDelete, if_pos rfl]
        exact dictGet_eq_none_of_not_mem _ _ h.1
      · simp [dictDelete, dictGet, hk, ih h.2]

/-- Wizard-visible bot configuration state: the ticket table plus the
scalar keys the flow reads and writes (`latest_ticket_number`,
`staff_role_ids`, `transcript_channel_id`). -/
structure BotState where
  tickets : List (String × Ticket)
  latest_ticket_number : Nat
  staff_role_ids : List Nat
  transcript_channel_id : Option Nat
  deriving DecidableEq

/-- Python `int(s)` on the decimal-digit strings produced by
`str(channel_id)`. -/
def strToNat (s : String) : Nat :=
  s.data.foldl (fun acc c => acc * 10 + (c.toNat - 48)) 0

/-- The guard loop of `TicketCreationHandler.start_flow`
(src/cogs/tickets.py:196-209): scan the ticket table for an entry whose
`user_id` matches the invoking user and whose status is `"open"`; the flow
returns (short-circuits) only when `guild.get_channel(int(channel_id))`
also resolves, i.e. the recorded channel id is among the existing channels.
Entries whose channel does not resolve are skipped and the loop continues. -/
def findOpenTicketChannel (user : Nat) (existing : List Nat) :
    List (String × Ticket) → Option Nat
  | [] => none
  | (channel_id, t) :: rest =>
      if t.user_id == user && t.status == "open"
          && existing.contains (strToNat channel_id) then
        some (strToNat channel_id)
      else findOpenTicketChannel user existing rest

/-- Model of `TicketCreationHandler.create_ticket_channel`'s counter logic
(src/cogs/tickets.py:313-315 and 373-375): read `latest_ticket_number`
(default 0), add one to obtain the ticket number, and persist the
incremented value back with `config.set`. -/
def create_ticket_channel (s : BotState) : Nat × BotState :=
  let n := s.latest_ticket_number + 1
  (n, { s with latest_ticket_number := n })

/-- Outcome of one invocation of the creation flow. -/
inductive FlowResult where
  | shortCircuit (existingChannelId : Nat)
  | created (newChannelId : Nat) (ticketNumber : Nat)
  deriving DecidableEq

/-- Model of `TicketCreationHandler.start_flow` (src/cogs/tickets.py:194-293),
restricted to the deterministic skeleton the claims are about: the
duplicate-open-ticket guard, then — when the guard does not fire — the
successful completion path, in which the platform allocates the fresh
channel `newChannelId`, the counter is drawn and persisted, the
questionnaire completes with answers `data`, and `update_ticket_info`
commits the record via `config.add_ticket` (src/cogs/tickets.py:596-601).
Timeout and collaborator-failure paths add no record and are outside the
claims settled against this definition. -/
def start_flow (s : BotState) (existing : List Nat) (user newChannelId : Nat)
    (data : TicketData) : FlowResult × BotState :=
  match findOpenTicketChannel user existing s.tickets with
  | some cid => (FlowResult.shortCircuit cid, s)
  | none =>
      let r := create_ticket_channel s
      let s2 := { r.2 with tickets := add_ticket r.2.tickets newChannelId user data }
      (FlowResult.created newChannelId r.1, s2)

/-- The per-user uniqueness invariant of the ticket table: no two entries
are both `"open"` with the same `user_id`. -/
def atMostOneOpenPerUser (ts : List (String × Ticket)) : Prop :=
  ts.Pairwise (fun a b => ¬(a.2.status = "open" ∧ b.2.status = "open"
    ∧ a.2.user_id = b.2.user_id))

instance (ts : List (String × Ticket)) : Decidable (atMostOneOpenPerUser ts) := by
  unfold atMostOneOpenPerUser
  exact List.instDecidablePairwise ts

/-- An interaction actor: the invoking member's id, administrator bit and
role ids, as read by `TicketManagement.check_permissions`. -/
structure Actor where
  id : Nat
  administrator : Bool
  roles : List Nat
  deriving DecidableEq

/-- Model of `TicketManagement.check_permissions` (src/cogs/ticket_management.py:127-144):
administrators pass; then any role of the actor that is among the configured
`staff_role_ids` passes; then the actor passes when the channel's ticket
record exists and its `user_id` equals the actor's id; otherwise `False`. -/
def check_permissions (staff_role_ids : List Nat) (tickets : List (String × Ticket))
    (channel_id : Nat) (actor : Actor) : Bool :=
  if actor.administrator then true
  else if actor.roles.any (fun r => staff_role_ids.contains r) then true
  else
    match get_ticket tickets channel_id with
    | some t => t.user_id == actor.id
    | none => false

/-- Observable side effects of the management commands, other than the
user-facing reply. -/
inductive Effect where
  | transcriptGenerated
  | transcriptSent
  | statusWrite (channel_id : Nat) (status : String)
  | closureNotice
  | permissionRevoked (user_id : Nat)
  | channelRenamed
  | recordDeleted (channel_id : Nat)
  | dmSent (user_id : Nat)
  | channelDeleted (channel_id : Nat)
  deriving DecidableEq

/-- Reply of `/ticket_close` (and the close button). -/
inductive CloseOutcome where
  | notTicketChannel
  | noPermission
  | alreadyClosed
  | cancelled
  | timedOut
  | closed
  deriving DecidableEq

/-- Resolution of a configured channel id against the guild, modelling
`if channel_id:` (Python falsiness: `None` and `0` are skipped) followed by
`guild.get_channel(int(channel_id))`. -/
def resolveChannel (existing : List Nat) : Option Nat → Option Nat
  | none => none
  | some i => if i != 0 && existing.contains i then some i else none

/-- Model of `TicketManagement.ticket_close` (src/cogs/ticket_management.py:275-404)
and the identical `handle_close_button` (lines 800-923): ticket-channel
check, authorization check, already-closed guard, then a confirmation
dialog (`confirm`: `none` models a dialog timeout); on confirmation, a
transcript is generated and sent when the configured transcript channel
resolves, the status is written to `"closed"`, a closure notice is posted,
the creator's permission overwrite is removed when the creator is still a
guild member, and the channel is renamed.  Collaborator calls on the
confirmed path are modelled as succeeding. -/
def ticket_close (s : BotState) (existing members : List Nat) (channel_id : Nat)
    (actor : Actor) (confirm : Option Bool) : CloseOutcome × BotState × List Effect :=
  match get_ticket s.tickets channel_id with
  | none => (CloseOutcome.notTicketChannel, s, [])
  | some t =>
      if ¬ check_permissions s.staff_role_ids s.tickets channel_id actor then
        (CloseOutcome.noPermission, s, [])
      else if t.status = "closed" then
        (CloseOutcome.alreadyClosed, s, [])
      else
        match confirm with
        | some true =>
            let transcriptEffects :=
              match resolveChannel existing s.transcript_channel_id with
              | some _ => [Effect.transcriptGenerated, Effect.transcriptSent]
              | none => []
            let s' := { s with tickets := update_ticket_status s.tickets channel_id "closed" }
            let revokeEffects :=
              if members.contains t.user_id then [Effect.permissionRevoked t.user_id] else []
            (CloseOutcome.closed, s',
              transcriptEffects ++ [Effect.statusWrite channel_id "closed", Effect.closureNotice]
                ++ revokeEffects ++ [Effect.channelRenamed])
        | some false => (CloseOutcome.cancelled, s, [])
        | none => (CloseOutcome.timedOut, s, [])

/-- Reply of `/ticket_delete`. -/
inductive DeleteOutcome where
  | notTicketChannel
  | noPermission
  | cancelled
  | timedOut
  | deleted
  | deleteForbidden
  deriving DecidableEq

/-- Model of `TicketManagement.ticket_delete` (src/cogs/ticket_management.py:406-490):
ticket-channel check, authorization check, confirmation dialog; on
confirmation the record is removed from the store first
(`config.delete_ticket`, line 446), a best-effort DM is sent to the owner
when still a member, and only then is the channel deleted —
`discord.Forbidden` on that deletion (`channelDeleteAllowed = false`) is
caught and reported, with no compensation of the record removal. -/
def ticket_delete (s : BotState) (members : List Nat) (channel_id : Nat)
    (actor : Actor) (confirm : Option Bool) (channelDeleteAllowed : Bool) :
    DeleteOutcome × BotState × List Effect :=
  match get_ticket s.tickets channel_id with
  | none => (DeleteOutcome.notTicketChannel, s, [])
  | some t =>
      if ¬ check_permissions s.staff_role_ids s.tickets channel_id actor then
        (DeleteOutcome.noPermission, s, [])
      else
        match confirm with
        | some true =>
            let s' := { s with tickets := delete_ticket s.tickets channel_id }
            let dmEffects :=
              if members.contains t.user_id then [Effect.dmSent t.user_id] else []
            if channelDeleteAllowed then
              (DeleteOutcome.deleted, s',
                Effect.recordDeleted channel_id :: dmEffects ++ [Effect.channelDeleted channel_id])
            else
              (DeleteOutcome.deleteForbidden, s',
                Effect.recordDeleted channel_id :: dmEffects)
        | some false => (DeleteOutcome.cancelled, s, [])
        | none => (DeleteOutcome.timedOut, s, [])

/-- A JSON-like value, for the configuration document. -/
inductive ConfigValue where
  | null
  | int (n : Int)
  | str (s : String)
  | list (xs : List ConfigValue)
  | dict (entries : List (String × ConfigValue))

/-- The default document `DEFAULT_CONFIG` (src/config.py:6-14). -/
def DEFAULT_CONFIG : List (String × ConfigValue) :=
  [("tickets", ConfigValue.dict []),
   ("staff_role_ids", ConfigValue.list []),
   ("ticket_counter", ConfigValue.int 0),
   ("ticket_category_id", ConfigValue.null),
   ("ticket_channel_id", ConfigValue.null),
   ("transcript_channel_id", ConfigValue.null),
   ("ticket_cooldown", ConfigValue.int 30)]

/-- The backing file of the store: absent, present but not valid JSON, or a
parsed document. -/
inductive BackingFile where
  | absent
  | corrupt
  | valid (doc : List (String × ConfigValue))

/-- Generic association lookup, for `dict.get` on the document. -/
def lookupKey (k : String) : List (String × ConfigValue) → Option ConfigValue
  | [] => none
  | (k', v) :: rest => if k' = k then some v else lookupKey k rest

/-- Model of `Config._load_config` together with `Config._create_default_config`
(src/config.py:21-39): an absent file and an unparsable file both yield the
default document, which `_create_default_config` also persists via
`save()`; a parsable file is returned as-is (and not rewritten).  The
result is the in-memory document paired with the state of the backing file
after loading. -/
def load_config : BackingFile → List (String × ConfigValue) × BackingFile
  | BackingFile.absent => (DEFAULT_CONFIG, BackingFile.valid DEFAULT_CONFIG)
  | BackingFile.corrupt => (DEFAULT_CONFIG, BackingFile.valid DEFAULT_CONFIG)
  | BackingFile.valid d => (d, BackingFile.valid d)

/-- Model of `Config.get` (src/config.py:46-48): `self.data.get(key, default)`. -/
def configGet (data : List (String × ConfigValue)) (k : String)
    (default : ConfigValue) : ConfigValue :=
  (lookupKey k data).getD default

/-- A `datetime.datetime` value (validated fields). -/
structure DateTime where
  year : Nat
  month : Nat
  day : Nat
  hour : Nat
  minute : Nat
  second : Nat
  deriving DecidableEq

/-- Injective, order-preserving encoding of a valid `DateTime`; Python's
`datetime` comparison is lexicographic on the fields and every field below
the year is smaller than 100, so comparing keys agrees with it. -/
def DateTime.key (d : DateTime) : Nat :=
  ((((d.year * 100 + d.month) * 100 + d.day) * 100 + d.hour) * 100 + d.minute) * 100
    + d.second

/-- Length of each month as `datetime` validates it. -/
def days_in_month (year month : Nat) : Nat :=
  if month = 2 then
    if year % 4 = 0 ∧ (year % 100 ≠ 0 ∨ year % 400 = 0) then 29 else 28
  else if month = 4 ∨ month = 6 ∨ month = 9 ∨ month = 11 then 30
  else 31

/-- The range checks `datetime.datetime` performs on construction
(`MINYEAR = 1`; `strptime` raises `ValueError` out of range). -/
def validDateTime (d : DateTime) : Bool :=
  1 ≤ d.year && 1 ≤ d.month && d.month ≤ 12 && 1 ≤ d.day
    && d.day ≤ days_in_month d.year d.month
    && d.hour ≤ 23 && d.minute ≤ 59 && d.second ≤ 59

/-- Numeric value of a decimal digit character. -/
def digitVal (c : Char) : Nat := c.toNat - 48

/-- Model of `datetime.strptime(s, "%Y%m%d_%H%M%S")` on the strings the transcript
filenames produce: four year digits, two month digits, two day digits, an
underscore, then two digits each for hour, minute and second, with the
`datetime` range checks applied. -/
def parseCompactDateTime (s : String) : Option DateTime :=
  match s.data with
  | [y1, y2, y3, y4, m1, m2, d1, d2, u, h1, h2, mi1, mi2, s1, s2] =>
      if u = '_' && [y1, y2, y3, y4, m1, m2, d1, d2, h1, h2, mi1, mi2, s1, s2].all
          Char.isDigit then
        let dt : DateTime :=
          { year := ((digitVal y1 * 10 + digitVal y2) * 10 + digitVal y3) * 10 + digitVal y4
            month := digitVal m1 * 10 + digitVal m2
            day := digitVal d1 * 10 + digitVal d2
            hour := digitVal h1 * 10 + digitVal h2
            minute := digitVal mi1 * 10 + digitVal mi2
            second := digitVal s1 * 10 + digitVal s2 }
        if validDateTime dt then some dt else none
      else none
  | _ => none

/-- Model of `datetime.strptime(s, "%Y-%m-%d")` on `YYYY-MM-DD` strings: midnight of
the given calendar day, with the `datetime` range checks applied. -/
def parseDashDate (s : String) : Option DateTime :=
  match s.data with
  | [y1, y2, y3, y4, u1, m1, m2, u2, d1, d2] =>
      if u1 = '-' && u2 = '-' && [y1, y2, y3, y4, m1, m2, d1, d2].all Char.isDigit then
        let dt : DateTime :=
          { year := ((digitVal y1 * 10 + digitVal y2) * 10 + digitVal y3) * 10 + digitVal y4
            month := digitVal m1 * 10 + digitVal m2
            day := digitVal d1 * 10 + digitVal d2
            hour := 0, minute := 0, second := 0 }
        if validDateTime dt then some dt else none
      else none
  | _ => none

/-- Python `str.split(sep)` for a one-character separator, on character
lists; the result list is never empty. -/
def splitOnChar (sep : Char) : List Char → List (List Char)
  | [] => [[]]
  | c :: rest =>
      match splitOnChar sep rest with
      | [] => [[]]
      | h :: t => if c = sep then [] :: h :: t else (c :: h) :: t

/-- Python `s.split(sep)` for a one-character separator. -/
def strSplitOn (sep : Char) (s : String) : List String :=
  (splitOnChar sep s.data).map String.mk

/-- The filename-to-date-string step of `search_transcripts`
(src/utils/core.py:511-513): when `'_' in filename`, the candidate is
`filename.split('_')[-2] + '_' + filename.split('_')[-1].split('.')[0]`. -/
def filenameDatePart (filename : String) : Option String :=
  let parts := strSplitOn '_' filename
  if parts.length ≥ 2 then
    some (parts.getD (parts.length - 2) "" ++ "_"
      ++ (strSplitOn '.' (parts.getLastD "")).headD "")
  else none

/-- Filename-derived date of a transcript (src/utils/core.py:510-514):
parse fails (`ValueError`, caught at line 522) when the filename has no
underscore or the extracted part is not a valid `%Y%m%d_%H%M%S` date. -/
def parseFilenameDate (filename : String) : Option DateTime :=
  match filenameDatePart filename with
  | none => none
  | some dp => parseCompactDateTime dp

/-- Digit padding for `strftime("%Y-%m-%d %H:%M:%S")`. -/
def pad2 (n : Nat) : String := if n < 10 then "0" ++ toString n else toString n

/-- Zero-padding of the year to four digits. -/
def pad4 (n : Nat) : String :=
  if n < 10 then "000" ++ toString n
  else if n < 100 then "00" ++ toString n
  else if n < 1000 then "0" ++ toString n
  else toString n

/-- Model of `file_date.strftime("%Y-%m-%d %H:%M:%S")` (src/utils/core.py:515). -/
def DateTime.format (d : DateTime) : String :=
  pad4 d.year ++ "-" ++ pad2 d.month ++ "-" ++ pad2 d.day ++ " "
    ++ pad2 d.hour ++ ":" ++ pad2 d.minute ++ ":" ++ pad2 d.second

/-- Python truthiness of an optional string (`if query:`): `None` and the
empty string are falsy. -/
def optTruthy : Option String → Bool
  | none => false
  | some s => !s.data.isEmpty

/-- Lower-casing, for the case-insensitive checks. -/
def strLower (s : String) : String := String.mk (s.data.map Char.toLower)

/-- Python's substring test `needle in hay` on character lists. -/
def containsSub (needle : List Char) : List Char → Bool
  | [] => needle.isEmpty
  | c :: rest => needle.isPrefixOf (c :: rest) || containsSub needle rest

/-- Suffix test, for `filename.endswith(ext)`. -/
def strEndsWith (suffix s : String) : Bool := suffix.data.isSuffixOf s.data

/-- Case-insensitive literal match (the `re.escape(user)` part of the user
patterns under `re.IGNORECASE`): consume the pattern from the front of the
input, returning the remainder. -/
def matchLiteralCI (pat cs : List Char) : Option (List Char) :=
  match pat, cs with
  | [], rest => some rest
  | _ :: _, [] => none
  | p :: ps, c :: rest => if p.toLower = c.toLower then matchLiteralCI ps rest else none

/-- Whether `[^:]*:` matches a prefix of the input: scan forward through
non-colon characters; a match exists exactly when a colon is reached. -/
def matchNonColonStarColon : List Char → Bool
  | [] => false
  | c :: rest => if c = ':' then true else matchNonColonStarColon rest

/-- Whether `re.escape(user)[^:]*:` matches at the current position. -/
def userPatternAt (user cs : List Char) : Bool :=
  match matchLiteralCI user cs with
  | some rest => matchNonColonStarColon rest
  | none => false

/-- Model of `re.search` of the fallback author pattern `rf"{re.escape(user)}[^:]*:"`
(src/utils/core.py:546): a match at some position of the content. -/
def searchUserPattern (user : List Char) (cs : List Char) : Bool :=
  userPatternAt user cs ||
    match cs with
    | [] => false
    | _ :: rest => searchUserPattern user rest

/-- Whether the prefix `\[\d{4}-\d{2}-\d{2} \d{2}:\d{2}:\d{2}\] ` matches at
the current position, returning the remainder after the bracketed
timestamp and space. -/
def matchTimestampAt (cs : List Char) : Option (List Char) :=
  match cs with
  | '[' :: a1 :: a2 :: a3 :: a4 :: '-' :: b1 :: b2 :: '-' :: c1 :: c2 :: ' ' ::
      d1 :: d2 :: ':' :: e1 :: e2 :: ':' :: f1 :: f2 :: ']' :: ' ' :: rest =>
      if [a1, a2, a3, a4, b1, b2, c1, c2, d1, d2, e1, e2, f1, f2].all Char.isDigit then
        some rest
      else none
  | _ => none

/-- Whether the timestamp-prefixed author pattern
`rf"\[\d{4}-\d{2}-\d{2} \d{2}:\d{2}:\d{2}\] {re.escape(user)}[^:]*:"`
(src/utils/core.py:543) matches at the current position. -/
def timestampUserPatternAt (user cs : List Char) : Bool :=
  match matchTimestampAt cs with
  | some rest => userPatternAt user rest
  | none => false

/-- Model of `re.search` of the timestamp-prefixed author pattern. -/
def searchTimestampUserPattern (user : List Char) (cs : List Char) : Bool :=
  timestampUserPatternAt user cs ||
    match cs with
    | [] => false
    | _ :: rest => searchTimestampUserPattern user rest

/-- The author filter applied to a `.txt` transcript
(src/utils/core.py:541-548): the timestamp-prefixed pattern, falling back
to the bare `user[^:]*:` pattern, both case-insensitive. -/
def userFilterPasses (user content : String) : Bool :=
  searchTimestampUserPattern user.data content.data
    || searchUserPattern user.data content.data

/-- One entry of the list `search_transcripts` returns
(src/utils/core.py:558-564); the `path` key is the directory-prefixed
filename and is omitted as derived. -/
structure SearchResult where
  filename : String
  dateStr : Option String
  channel_id : Option String
  preview : String
  deriving DecidableEq

/-- Model of `filename.split('_')[1]` under `try/except IndexError`
(src/utils/core.py:551-555). -/
def channelIdFromFilename (filename : String) : Option String :=
  let parts := strSplitOn '_' filename
  if parts.length ≥ 2 then some (parts.getD 1 "") else none

/-- Model of `content[:200] + "..."` when longer than 200 characters
(src/utils/core.py:563). -/
def previewOf (content : String) : String :=
  if content.data.length > 200 then String.mk (content.data.take 200) ++ "..." else content

/-- The date-range filter of the loop (src/utils/core.py:517-521): a file
is excluded when its filename date parsed and `file_date < from_date` or
`file_date > to_date`; when the filename date did not parse, no date filter
applies to the file. -/
def dateExcluded (from_date to_date : Option DateTime) : Option DateTime → Bool
  | some d =>
      (match from_date with | some f => decide (d.key < f.key) | none => false)
        || (match to_date with | some t0 => decide (t0.key < d.key) | none => false)
  | none => false

/-- The skip of styled files when no truthy query is supplied
(src/utils/core.py:531-534): `if filename.endswith('.html') and not query`. -/
def htmlSkip (query : Option String) (filename : String) : Bool :=
  strEndsWith ".html" filename && !optTruthy query

/-- The case-insensitive substring query filter (src/utils/core.py:536-538):
`if query and query.lower() not in content.lower()`. -/
def querySkip (query : Option String) (content : String) : Bool :=
  match query with
  | some q => optTruthy (some q) && !containsSub (strLower q).data (strLower content).data
  | none => false

/-- The author filter step (src/utils/core.py:540-548): applies only when a
truthy `user` is supplied and the file is a `.txt` document. -/
def userSkip (user : Option String) (filename content : String) : Bool :=
  match user with
  | some u => optTruthy (some u) && strEndsWith ".txt" filename
      && !userFilterPasses u content
  | none => false

/-- The result record appended for a surviving file
(src/utils/core.py:557-564). -/
def mkResult (filename content : String) : SearchResult :=
  { filename := filename
    dateStr := (parseFilenameDate filename).map DateTime.format
    channel_id := channelIdFromFilename filename
    preview := previewOf content }

/-- The per-file body of the `search_transcripts` loop
(src/utils/core.py:505-564), returning `none` for `continue`: date-range
filter (skipped entirely when the filename date does not parse), the skip
of styled files when no truthy query is supplied, the case-insensitive
substring query filter, and the author filter on `.txt` files. -/
def processFile (query user : Option String) (from_date to_date : Option DateTime)
    (filename content : String) : Option SearchResult :=
  if dateExcluded from_date to_date (parseFilenameDate filename) then none
  else if htmlSkip query filename then none
  else if querySkip query content then none
  else if userSkip user filename content then none
  else some (mkResult filename content)

/-- The collection loop of `search_transcripts` with its limit check
(src/utils/core.py:505-568): results are appended in file order and the
loop breaks as soon as `len(results) >= limit`. -/
def searchLoop (query user : Option String) (from_date to_date : Option DateTime)
    (limit : Nat) : List (String × String) → List SearchResult → List SearchResult
  | [], acc => acc
  | (fn, c) :: rest, acc =>
      match processFile query user from_date to_date fn c with
      | none => searchLoop query user from_date to_date limit rest acc
      | some r =>
          if (acc ++ [r]).length ≥ limit then acc ++ [r]
          else searchLoop query user from_date to_date limit rest (acc ++ [r])

/-- The directory listing filter (src/utils/core.py:502): only `.txt` and
`.html` files are considered. -/
def listingFilter (files : List (String × String)) : List (String × String) :=
  files.filter (fun fc => strEndsWith ".txt" fc.1 || strEndsWith ".html" fc.1)

/-- The value `from_date` of `search_transcripts` (src/utils/core.py:487-491):
computed only for a truthy `date_from`; a `ValueError` leaves it `None`. -/
def parseFromDate : Option String → Option DateTime
  | none => none
  | some s => if s.data.isEmpty then none else parseDashDate s

/-- The value `to_date` of `search_transcripts` (src/utils/core.py:493-499): as
`from_date`, then `replace(hour=23, minute=59, second=59)`. -/
def parseToDate : Option String → Option DateTime
  | none => none
  | some s =>
      if s.data.isEmpty then none
      else
        match parseDashDate s with
        | some d => some { d with hour := 23, minute := 59, second := 59 }
        | none => none

/-- Whether `results.sort(key=lambda x: x.get("date", ""), reverse=True)`
(src/utils/core.py:574) raises `TypeError`: every record carries a `date`
key whose value is the parsed date string or `None`, and comparing `None`
with anything raises; with two or more results every key participates in
at least one comparison, so the sort raises exactly when some collected
result has no date string. -/
def sortRaises (rs : List SearchResult) : Bool :=
  rs.length ≥ 2 && rs.any (fun r => r.dateStr.isNone)

/-- The sort key `x.get("date", "")` restricted to the non-raising case,
in which every collected result has a date string. -/
def dateSortKey (r : SearchResult) : String := r.dateStr.getD ""

/-- Stable descending insertion: `r` is placed before the first element
whose key is not strictly greater than `r`'s. -/
def insertByDateDesc (r : SearchResult) : List SearchResult → List SearchResult
  | [] => [r]
  | x :: xs =>
      if decide (dateSortKey r < dateSortKey x) then x :: insertByDateDesc r xs
      else r :: x :: xs

/-- Stable sort, descending by date string.  Python's `list.sort` is a
stable sort, and stable sorts under the same total preorder produce the
same list, so insertion sort models `results.sort(key=..., reverse=True)`
exactly. -/
def sortByDateDesc : List SearchResult → List SearchResult
  | [] => []
  | x :: xs => insertByDateDesc x (sortByDateDesc xs)

/-- The tail of `search_transcripts` (src/utils/core.py:573-580): the
descending stable sort by date string and the final `results[:limit]`; a
raising sort is caught by the surrounding handler, which returns `[]`. -/
def searchFinish (collected : List SearchResult) (limit : Nat) : List SearchResult :=
  if sortRaises collected then []
  else (sortByDateDesc collected).take limit

/-- Model of `search_transcripts` (src/utils/core.py:453-580) over the directory
contents `files` (filename paired with file content; read errors and the
absent-directory early return are outside this model). -/
def search_transcripts (files : List (String × String))
    (query user date_from date_to : Option String) (limit : Nat) : List SearchResult :=
  searchFinish
    (searchLoop query user (parseFromDate date_from) (parseToDate date_to) limit
      (listingFilter files) [])
    limit

theorem findOpenTicketChannel_isSome_iff (u : Nat) (existing : List Nat)
    (ts : List (String × Ticket)) :
    (findOpenTicketChannel u existing ts).isSome ↔
      ∃ e ∈ ts, e.2.user_id = u ∧ e.2.status = "open"
        ∧ existing.contains (strToNat e.1) = true := by
  induction ts with
  | nil => simp [findOpenTicketChannel]
  | cons hd tl ih =>
      obtain ⟨cid, t⟩ := hd
      by_cases h : t.user_id == u && t.status == "open"
          && existing.contains (strToNat cid)
      · simp only [findOpenTicketChannel, if_pos h, Option.isSome_some, true_iff]
        simp only [Bool.and_eq_true, beq_iff_eq] at h
        exact ⟨(cid, t), List.mem_cons_self _ _, h.1.1, h.1.2, h.2⟩
      · simp only [findOpenTicketChannel, if_neg h, ih]
        constructor
        · rintro ⟨e, he, h1, h2, h3⟩
          exact ⟨e, List.mem_cons_of_mem _ he, h1, h2, h3⟩
        · rintro ⟨e, he, h1, h2, h3⟩
          rcases List.mem_cons.mp he with hEq | hmem
          · exfalso
            apply h
            subst hEq
            simp only [Bool.and_eq_true, beq_iff_eq]
            exact ⟨⟨h1, h2⟩, h3⟩
          · exact ⟨e, hmem, h1, h2, h3⟩

theorem dictInsert_of_not_mem (k : String) (v : Ticket) (ts : List (String × Ticket))
    (h : k ∉ ts.map Prod.fst) : dictInsert k v ts = ts ++ [(k, v)] := by
  induction ts with
  | nil => rfl
  | cons hd tl ih =>
      obtain ⟨k', v'⟩ := hd
      simp only [List.map_cons, List.mem_cons] at h
      push_neg at h
      have hk : k' ≠ k := fun hEq => h.1 hEq.symm
      simp [dictInsert, hk, ih h.2]

/-- C2: for every channel id, user id and answer data supplying country,
group link and payment method, `add_ticket` followed by `get_ticket`
returns a record whose `user_id`, `country`, `group_link` and
`payment_method` equal the inputs exactly, and `update_ticket_status` to
`"closed"` followed by `get_ticket` shows status `"closed"` with every
other field of the record unchanged. -/
theorem add_get_roundtrip (ts : List (String × Ticket)) (cid uid : Nat) (d : TicketData)
    (c g p : String) (hc : d.country = some c) (hg : d.group_link = some g)
    (hp : d.payment_method = some p) :
    get_ticket (add_ticket ts cid uid d) cid =
      some { user_id := uid, status := "open", created_at := d.created_at.getD "",
             country := c, group_link := g, payment_method := p } ∧
    get_ticket (update_ticket_status (add_ticket ts cid uid d) cid "closed") cid =
      some { user_id := uid, status := "closed", created_at := d.created_at.getD "",
             country := c, group_link := g, payment_method := p } := by
  have h1 : dictGet (toString cid) (add_ticket ts cid uid d) =
      some { user_id := uid, status := "open", created_at := d.created_at.getD "",
             country := c, group_link := g, payment_method := p } := by
    unfold add_ticket
    rw [dictGet_dictInsert]
    simp [hc, hg, hp]
  refine ⟨h1, ?_⟩
  unfold get_ticket update_ticket_status
  rw [h1]
  simp only [Option.isSome_some, if_true]
  rw [dictGet_dictUpdateStatus, h1]
  rfl

/-- C2 witness: the round trip evaluated at channel 5, user 7 and concrete
answers. -/
theorem add_get_roundtrip_witness :
    get_ticket (add_ticket [] 5 7 ⟨some "t", some "Canada", some "link", some "PayPal"⟩) 5 =
      some { user_id := 7, status := "open", created_at := "t", country := "Canada",
             group_link := "link", payment_method := "PayPal" } ∧
    get_ticket (update_ticket_status
        (add_ticket [] 5 7 ⟨some "t", some "Canada", some "link", some "PayPal"⟩) 5
        "closed") 5 =
      some { user_id := 7, status := "closed", created_at := "t", country := "Canada",
             group_link := "link", payment_method := "PayPal" } :=
  add_get_roundtrip [] 5 7 ⟨some "t", some "Canada", some "link", some "PayPal"⟩
    "Canada" "link" "PayPal" rfl rfl rfl

/-- C5: in a ticket channel, the authorization check used by the
ticket-management operations returns `true` exactly when the actor is an
administrator, or holds at least one configured staff role, or the actor's
id equals the ticket record's `user_id`; and whenever it returns `false`
the close and delete operations are refused with no state change and no
side effects. -/
theorem check_permissions_spec (s : BotState) (existing members : List Nat) (cid : Nat)
    (a : Actor) (confirm : Option Bool) (allowed : Bool) (t : Ticket)
    (ht : get_ticket s.tickets cid = some t) :
    (check_permissions s.staff_role_ids s.tickets cid a = true ↔
      (a.administrator = true ∨ (∃ r ∈ a.roles, r ∈ s.staff_role_ids)
        ∨ t.user_id = a.id)) ∧
    (check_permissions s.staff_role_ids s.tickets cid a = false →
      ticket_close s existing members cid a confirm = (CloseOutcome.noPermission, s, []) ∧
      ticket_delete s members cid a confirm allowed =
        (DeleteOutcome.noPermission, s, [])) := by
  constructor
  · unfold check_permissions
    rw [ht]
    by_cases hadm : a.administrator
    · simp [hadm]
    · simp only [hadm, if_false, Bool.false_eq_true, false_or]
      by_cases hstaff : a.roles.any (fun r => s.staff_role_ids.contains r)
      · simp only [hstaff, if_true, true_iff]
        left
        simpa [List.any_eq_true] using hstaff
      · simp only [hstaff, if_false]
        have : ¬ ∃ r ∈ a.roles, r ∈ s.staff_role_ids := by
          simpa [List.any_eq_true] using hstaff
        simp [this, beq_iff_eq]
  · intro hfail
    constructor
    · unfold ticket_close
      rw [ht]
      simp [hfail]
    · unfold ticket_delete
      rw [ht]
      simp [hfail]

/-- C5 witness: the check evaluated for the ticket owner (user 7, no staff
roles, not an administrator) in a channel whose record belongs to user 7,
and the refusal evaluated for a stranger (user 8). -/
theorem check_permissions_spec_witness :
    ((check_permissions [] [("5", ⟨7, "open", "", "", "", ""⟩)] 5 ⟨7, false, []⟩ = true ↔
      ((false = true) ∨ (∃ r ∈ ([] : List Nat), r ∈ ([] : List Nat)) ∨ (7 : Nat) = 7)) ∧
      (check_permissions [] [("5", ⟨7, "open", "", "", "", ""⟩)] 5 ⟨7, false, []⟩ = false →
        ticket_close ⟨[("5", ⟨7, "open", "", "", "", ""⟩)], 0, [], none⟩ [] [] 5
            ⟨7, false, []⟩ (some true) =
          (CloseOutcome.noPermission, ⟨[("5", ⟨7, "open", "", "", "", ""⟩)], 0, [], none⟩, []) ∧
        ticket_delete ⟨[("5", ⟨7, "open", "", "", "", ""⟩)], 0, [], none⟩ [] 5
            ⟨7, false, []⟩ (some true) true =
          (DeleteOutcome.noPermission, ⟨[("5", ⟨7, "open", "", "", "", ""⟩)], 0, [], none⟩,
            []))) :=
  check_permissions_spec ⟨[("5", ⟨7, "open", "", "", "", ""⟩)], 0, [], none⟩ [] [] 5
    ⟨7, false, []⟩ (some true) true ⟨7, "open", "", "", "", ""⟩ rfl

/-- C9: an absent backing file yields the default document, created and
persisted; an unparsable backing file is discarded and likewise replaced by
the persisted defaults; every subsequent `get(key, default)` then reads
from that default document. -/
theorem load_config_spec :
    load_config BackingFile.absent = (DEFAULT_CONFIG, BackingFile.valid DEFAULT_CONFIG) ∧
    load_config BackingFile.corrupt = (DEFAULT_CONFIG, BackingFile.valid DEFAULT_CONFIG) ∧
    (∀ k d, configGet (load_config BackingFile.absent).1 k d
      = configGet DEFAULT_CONFIG k d) ∧
    (∀ k d, configGet (load_config BackingFile.corrupt).1 k d
      = configGet DEFAULT_CONFIG k d) :=
  ⟨rfl, rfl, fun _ _ => rfl, fun _ _ => rfl⟩

/-- C9 witness: the loaded document answers a concrete `get` from the
defaults. -/
theorem load_config_spec_witness :
    configGet (load_config BackingFile.corrupt).1 "ticket_cooldown" ConfigValue.null
      = ConfigValue.int 30 :=
  (load_config_spec.2.2.2 "ticket_cooldown" ConfigValue.null).trans rfl

/-- C8: every completed ticket-channel creation draws a ticket number equal
to the stored counter plus one and persists the incremented value back to
the store, so two successive completed creations receive the strictly
increasing numbers `n+1` and `n+2` with no gap. -/
theorem ticket_counter_spec (s : BotState) (existing : List Nat) (u1 u2 c1 c2 : Nat)
    (d1 d2 : TicketData) (n1 n2 : Nat) (s1 s2 : BotState)
    (h1 : start_flow s existing u1 c1 d1 = (FlowResult.created c1 n1, s1))
    (h2 : start_flow s1 existing u2 c2 d2 = (FlowResult.created c2 n2, s2)) :
    n1 = s.latest_ticket_number + 1 ∧ s1.latest_ticket_number = n1 ∧
    n2 = s1.latest_ticket_number + 1 ∧ s2.latest_ticket_number = n2 ∧
    n2 = n1 + 1 := by
  have step : ∀ (st : BotState) (u c : Nat) (d : TicketData) (n : Nat) (st' : BotState),
      start_flow st existing u c d = (FlowResult.created c n, st') →
      n = st.latest_ticket_number + 1 ∧ st'.latest_ticket_number = n := by
    intro st u c d n st' h
    unfold start_flow create_ticket_channel at h
    cases hf : findOpenTicketChannel u existing st.tickets with
    | some x => rw [hf] at h; simp at h
    | none =>
        rw [hf] at h
        simp only [Prod.mk.injEq, FlowResult.created.injEq] at h
        obtain ⟨⟨-, hn⟩, hst⟩ := h
        subst hn
        subst hst
        exact ⟨rfl, rfl⟩
  obtain ⟨a1, b1⟩ := step s u1 c1 d1 n1 s1 h1
  obtain ⟨a2, b2⟩ := step s1 u2 c2 d2 n2 s2 h2
  exact ⟨a1, b1, a2, b2, by rw [a2, b1]⟩

/-- C8 witness: two successive completed creations from the empty store
receive the numbers 1 and 2. -/
theorem ticket_counter_spec_witness :
    (1 : Nat) = (⟨[], 0, [], none⟩ : BotState).latest_ticket_number + 1 ∧
    (start_flow ⟨[], 0, [], none⟩ [] 1 10 ⟨none, none, none, none⟩).2.latest_ticket_number
      = 1 ∧
    (2 : Nat) =
      (start_flow ⟨[], 0, [], none⟩ [] 1 10 ⟨none, none, none, none⟩).2.latest_ticket_number
        + 1 ∧
    (start_flow (start_flow ⟨[], 0, [], none⟩ [] 1 10 ⟨none, none, none, none⟩).2 [] 2 20
      ⟨none, none, none, none⟩).2.latest_ticket_number = 2 ∧
    (2 : Nat) = 1 + 1 :=
  ticket_counter_spec ⟨[], 0, [], none⟩ [] 1 2 10 20 ⟨none, none, none, none⟩
    ⟨none, none, none, none⟩ 1 2
    (start_flow ⟨[], 0, [], none⟩ [] 1 10 ⟨none, none, none, none⟩).2
    (start_flow (start_flow ⟨[], 0, [], none⟩ [] 1 10 ⟨none, none, none, none⟩).2 [] 2 20
      ⟨none, none, none, none⟩).2
    (by decide) (by decide)

/-- C3: invoking close on a ticket whose stored status is `"closed"` leaves
the state unchanged and performs no side effects (no status write, no
transcript generation, no rename, no permission change), and — for an
actor who passes the authorization check — replies that the ticket is
already closed. -/
theorem ticket_close_already_closed (s : BotState) (existing members : List Nat)
    (cid : Nat) (a : Actor) (confirm : Option Bool) (t : Ticket)
    (ht : get_ticket s.tickets cid = some t) (hclosed : t.status = "closed") :
    (ticket_close s existing members cid a confirm).2.1 = s ∧
    (ticket_close s existing members cid a confirm).2.2 = [] ∧
    (check_permissions s.staff_role_ids s.tickets cid a = true →
      (ticket_close s existing members cid a confirm).1 = CloseOutcome.alreadyClosed) := by
  unfold ticket_close
  rw [ht]
  by_cases hp : check_permissions s.staff_role_ids s.tickets cid a
  · simp [hp, hclosed]
  · simp [hp]

/-- C3 witness: an administrator closing the already-closed ticket of
channel 5. -/
theorem ticket_close_already_closed_witness :
    (ticket_close ⟨[("5", ⟨7, "closed", "", "", "", ""⟩)], 0, [], none⟩ [] [] 5
      ⟨1, true, []⟩ (some true)).2.1 =
      (⟨[("5", ⟨7, "closed", "", "", "", ""⟩)], 0, [], none⟩ : BotState) ∧
    (ticket_close ⟨[("5", ⟨7, "closed", "", "", "", ""⟩)], 0, [], none⟩ [] [] 5
      ⟨1, true, []⟩ (some true)).2.2 = [] ∧
    (check_permissions [] [("5", ⟨7, "closed", "", "", "", ""⟩)] 5 ⟨1, true, []⟩ = true →
      (ticket_close ⟨[("5", ⟨7, "closed", "", "", "", ""⟩)], 0, [], none⟩ [] [] 5
        ⟨1, true, []⟩ (some true)).1 = CloseOutcome.alreadyClosed) :=
  ticket_close_already_closed ⟨[("5", ⟨7, "closed", "", "", "", ""⟩)], 0, [], none⟩ [] [] 5
    ⟨1, true, []⟩ (some true) ⟨7, "closed", "", "", "", ""⟩ rfl rfl

/-- C4: a confirmed, authorized delete removes the ticket record from the
store regardless of whether the subsequent channel removal is permitted:
for both values of `channelDeleteAllowed` the resulting store has no record
under the channel id, and the record removal is among the committed
effects. -/
theorem ticket_delete_removes_record (s : BotState) (members : List Nat) (cid : Nat)
    (a : Actor) (allowed : Bool) (t : Ticket)
    (ht : get_ticket s.tickets cid = some t)
    (hperm : check_permissions s.staff_role_ids s.tickets cid a = true)
    (hnodup : (s.tickets.map Prod.fst).Nodup) :
    get_ticket (ticket_delete s members cid a (some true) allowed).2.1.tickets cid
      = none ∧
    Effect.recordDeleted cid ∈ (ticket_delete s members cid a (some true) allowed).2.2 := by
  have hdel : get_ticket (delete_ticket s.tickets cid) cid = none := by
    unfold get_ticket delete_ticket
    unfold get_ticket at ht
    rw [ht]
    simp only [Option.isSome_some, if_true]
    exact dictGet_dictDelete_of_nodup _ _ hnodup
  unfold ticket_delete
  rw [ht]
  simp only [hperm, Bool.true_eq_false, not_true_eq_false, if_false, ite_false]
  cases allowed <;> simp [hdel]

/-- C4 witness: an administrator's confirmed delete of the ticket in
channel 5, with the channel removal forbidden. -/
theorem ticket_delete_removes_record_witness :
    get_ticket (ticket_delete ⟨[("5", ⟨7, "open", "", "", "", ""⟩)], 0, [], none⟩ [] 5
      ⟨1, true, []⟩ (some true) false).2.1.tickets 5 = none ∧
    Effect.recordDeleted 5 ∈
      (ticket_delete ⟨[("5", ⟨7, "open", "", "", "", ""⟩)], 0, [], none⟩ [] 5
        ⟨1, true, []⟩ (some true) false).2.2 :=
  ticket_delete_removes_record ⟨[("5", ⟨7, "open", "", "", "", ""⟩)], 0, [], none⟩ [] 5
    ⟨1, true, []⟩ false ⟨7, "open", "", "", "", ""⟩ rfl rfl (by decide)

/-- The record committed by `add_ticket` for user `u` and answers `d`. -/
def committedRecord (u : Nat) (d : TicketData) : Ticket :=
  { user_id := u, status := "open", created_at := d.created_at.getD ""
    country := d.country.getD "", group_link := d.group_link.getD ""
    payment_method := d.payment_method.getD "" }

/-- C1 counterexample: user 7 owns the open ticket recorded under channel
`"100"`, but channel 100 no longer exists in the guild, so the creation
flow does not short-circuit; it completes, commits a second record, and the
resulting table holds two open tickets for user 7. -/
theorem c1_counterexample :
    get_ticket [("100", ⟨7, "open", "", "", "", ""⟩)] 100 =
      some ⟨7, "open", "", "", "", ""⟩ ∧
    (start_flow ⟨[("100", ⟨7, "open", "", "", "", ""⟩)], 0, [], none⟩ [] 7 200
      ⟨some "now", some "US", some "No link provided", some "PayPal"⟩).1 =
      FlowResult.created 200 1 ∧
    ¬ atMostOneOpenPerUser
      (start_flow ⟨[("100", ⟨7, "open", "", "", "", ""⟩)], 0, [], none⟩ [] 7 200
        ⟨some "now", some "US", some "No link provided", some "PayPal"⟩).2.tickets := by
  decide

/-- C1 (amended): whenever the invoking user owns an open ticket record
whose recorded channel still exists, the flow short-circuits with a pointer
to such a channel and changes nothing; and provided every open record of
the invoking user has an existing channel and the new channel id is fresh,
the at-most-one-open-ticket-per-user invariant is preserved by the flow. -/
theorem open_ticket_guard (s : BotState) (existing : List Nat) (u ncid : Nat)
    (d : TicketData)
    (hchan : ∀ e ∈ s.tickets, e.2.user_id = u → e.2.status = "open" →
      existing.contains (strToNat e.1) = true)
    (hfresh : toString ncid ∉ s.tickets.map Prod.fst)
    (hinv : atMostOneOpenPerUser s.tickets) :
    ((∃ e ∈ s.tickets, e.2.user_id = u ∧ e.2.status = "open") →
      (∃ c, (start_flow s existing u ncid d).1 = FlowResult.shortCircuit c) ∧
      (start_flow s existing u ncid d).2 = s) ∧
    atMostOneOpenPerUser (start_flow s existing u ncid d).2.tickets := by
  cases hf : findOpenTicketChannel u existing s.tickets with
  | some c =>
      unfold start_flow
      rw [hf]
      exact ⟨fun _ => ⟨⟨c, rfl⟩, rfl⟩, hinv⟩
  | none =>
      have hnone : ∀ e ∈ s.tickets, ¬(e.2.user_id = u ∧ e.2.status = "open") := by
        intro e he hcontra
        have : (findOpenTicketChannel u existing s.tickets).isSome := by
          rw [findOpenTicketChannel_isSome_iff]
          exact ⟨e, he, hcontra.1, hcontra.2, hchan e he hcontra.1 hcontra.2⟩
        rw [hf] at this
        simp at this
      constructor
      · rintro ⟨e, he, h1, h2⟩
        exact absurd ⟨h1, h2⟩ (hnone e he)
      · have htick : (start_flow s existing u ncid d).2.tickets
            = dictInsert (toString ncid) (committedRecord u d) s.tickets := by
          unfold start_flow
          rw [hf]
          rfl
        rw [htick, dictInsert_of_not_mem _ _ _ hfresh]
        unfold atMostOneOpenPerUser at hinv ⊢
        rw [List.pairwise_append]
        refine ⟨hinv, List.pairwise_singleton _ _, ?_⟩
        intro x hx y hy
        have hy' : y = (toString ncid, committedRecord u d) := by simpa using hy
        subst hy'
        rintro ⟨hxo, -, hxu⟩
        exact hnone x hx ⟨hxu, hxo⟩

/-- C1 (amended) witness: user 7's open ticket channel 100 still exists, so
a fresh invocation short-circuits and preserves the invariant. -/
theorem open_ticket_guard_witness :
    ((∃ e ∈ [("100", (⟨7, "open", "", "", "", ""⟩ : Ticket))], e.2.user_id = 7
        ∧ e.2.status = "open") →
      (∃ c, (start_flow ⟨[("100", ⟨7, "open", "", "", "", ""⟩)], 0, [], none⟩ [100] 7 200
        ⟨none, none, none, none⟩).1 = FlowResult.shortCircuit c) ∧
      (start_flow ⟨[("100", ⟨7, "open", "", "", "", ""⟩)], 0, [], none⟩ [100] 7 200
        ⟨none, none, none, none⟩).2 =
        (⟨[("100", ⟨7, "open", "", "", "", ""⟩)], 0, [], none⟩ : BotState)) ∧
    atMostOneOpenPerUser
      (start_flow ⟨[("100", ⟨7, "open", "", "", "", ""⟩)], 0, [], none⟩ [100] 7 200
        ⟨none, none, none, none⟩).2.tickets :=
  open_ticket_guard ⟨[("100", ⟨7, "open", "", "", "", ""⟩)], 0, [], none⟩ [100] 7 200
    ⟨none, none, none, none⟩ (by decide) (by decide) (by decide)

/-- C10: when the invoking user owns an open ticket record but no recorded
open ticket channel of that user still exists in the guild, the creation
flow does not short-circuit: it creates the fresh channel, and the
committed table holds a second open record for that user, violating the
at-most-one-open-ticket-per-user invariant. -/
theorem stale_guard_bypass (s : BotState) (existing : List Nat) (u ncid : Nat)
    (d : TicketData)
    (howns : ∃ e ∈ s.tickets, e.2.user_id = u ∧ e.2.status = "open")
    (hstale : ∀ e ∈ s.tickets, e.2.user_id = u → e.2.status = "open" →
      existing.contains (strToNat e.1) = false)
    (hfresh : toString ncid ∉ s.tickets.map Prod.fst) :
    (start_flow s existing u ncid d).1
      = FlowResult.created ncid (s.latest_ticket_number + 1) ∧
    get_ticket (start_flow s existing u ncid d).2.tickets ncid
      = some (committedRecord u d) ∧
    ¬ atMostOneOpenPerUser (start_flow s existing u ncid d).2.tickets := by
  have hf : findOpenTicketChannel u existing s.tickets = none := by
    cases hf : findOpenTicketChannel u existing s.tickets with
    | none => rfl
    | some c =>
        exfalso
        have : (findOpenTicketChannel u existing s.tickets).isSome := by rw [hf]; rfl
        rw [findOpenTicketChannel_isSome_iff] at this
        obtain ⟨e, he, h1, h2, h3⟩ := this
        rw [hstale e he h1 h2] at h3
        exact Bool.false_ne_true h3
  have htick : (start_flow s existing u ncid d).2.tickets
      = dictInsert (toString ncid) (committedRecord u d) s.tickets := by
    unfold start_flow
    rw [hf]
    rfl
  refine ⟨?_, ?_, ?_⟩
  · unfold start_flow create_ticket_channel
    rw [hf]
  · rw [htick]
    unfold get_ticket
    exact dictGet_dictInsert _ _ _
  · rw [htick, dictInsert_of_not_mem _ _ _ hfresh]
    unfold atMostOneOpenPerUser
    rw [List.pairwise_append]
    rintro ⟨-, -, hcross⟩
    obtain ⟨e, he, h1, h2⟩ := howns
    exact hcross e he (toString ncid, committedRecord u d) (List.mem_singleton_self _)
      ⟨h2, rfl, h1⟩

/-- C10 witness: user 7's only open ticket points at channel 100, which no
longer exists; the flow completes and leaves two open records for user 7. -/
theorem stale_guard_bypass_witness :
    (start_flow ⟨[("100", ⟨7, "open", "", "", "", ""⟩)], 3, [], none⟩ [] 7 200
      ⟨none, none, none, none⟩).1 = FlowResult.created 200 (3 + 1) ∧
    get_ticket (start_flow ⟨[("100", ⟨7, "open", "", "", "", ""⟩)], 3, [], none⟩ [] 7 200
      ⟨none, none, none, none⟩).2.tickets 200 =
      some (committedRecord 7 ⟨none, none, none, none⟩) ∧
    ¬ atMostOneOpenPerUser
      (start_flow ⟨[("100", ⟨7, "open", "", "", "", ""⟩)], 3, [], none⟩ [] 7 200
        ⟨none, none, none, none⟩).2.tickets :=
  stale_guard_bypass ⟨[("100", ⟨7, "open", "", "", "", ""⟩)], 3, [], none⟩ [] 7 200
    ⟨none, none, none, none⟩ (by decide) (by decide) (by decide)

theorem insertByDateDesc_mem (r x : SearchResult) (l : List SearchResult) :
    r ∈ insertByDateDesc x l ↔ r = x ∨ r ∈ l := by
  induction l with
  | nil => simp [insertByDateDesc]
  | cons y ys ih =>
      unfold insertByDateDesc
      by_cases h : dateSortKey x < dateSortKey y
      · rw [if_pos (by simpa using h)]
        simp only [List.mem_cons, ih]
        tauto
      · rw [if_neg (by simpa using h)]
        simp only [List.mem_cons]

theorem sortByDateDesc_mem (r : SearchResult) (l : List SearchResult) :
    r ∈ sortByDateDesc l ↔ r ∈ l := by
  induction l with
  | nil => simp [sortByDateDesc]
  | cons x xs ih => simp [sortByDateDesc, insertByDateDesc_mem, ih]

theorem searchLoop_mem (q u : Option String) (f t : Option DateTime) (lim : Nat)
    (files : List (String × String)) (acc : List SearchResult) (r : SearchResult)
    (h : r ∈ searchLoop q u f t lim files acc) :
    r ∈ acc ∨ ∃ fc ∈ files, processFile q u f t fc.1 fc.2 = some r := by
  induction files generalizing acc with
  | nil =>
      left
      simpa [searchLoop] using h
  | cons hd tl ih =>
      obtain ⟨fn, c⟩ := hd
      unfold searchLoop at h
      cases hp : processFile q u f t fn c with
      | none =>
          rw [hp] at h
          dsimp only at h
          rcases ih acc h with h1 | ⟨fc, hfc, he⟩
          · exact Or.inl h1
          · exact Or.inr ⟨fc, List.mem_cons_of_mem _ hfc, he⟩
      | some r' =>
          rw [hp] at h
          dsimp only at h
          have hsplit : r ∈ acc ++ [r'] →
              r ∈ acc ∨ ∃ fc ∈ (fn, c) :: tl, processFile q u f t fc.1 fc.2 = some r := by
            intro hm
            rcases List.mem_append.mp hm with h1 | h2
            · exact Or.inl h1
            · have hr : r = r' := by simpa using h2
              subst hr
              exact Or.inr ⟨(fn, c), List.mem_cons_self _ _, hp⟩
          by_cases hl : (acc ++ [r']).length ≥ lim
          · rw [if_pos hl] at h
            exact hsplit h
          · rw [if_neg hl] at h
            rcases ih (acc ++ [r']) h with h1 | ⟨fc, hfc, he⟩
            · exact hsplit h1
            · exact Or.inr ⟨fc, List.mem_cons_of_mem _ hfc, he⟩

theorem search_transcripts_mem (files : List (String × String))
    (q u df dt : Option String) (lim : Nat) (r : SearchResult)
    (h : r ∈ search_transcripts files q u df dt lim) :
    ∃ fc ∈ files, processFile q u (parseFromDate df) (parseToDate dt) fc.1 fc.2
      = some r := by
  unfold search_transcripts searchFinish at h
  by_cases hs : sortRaises (searchLoop q u (parseFromDate df) (parseToDate dt) lim
      (listingFilter files) []) = true
  · rw [if_pos hs] at h
    simp at h
  · rw [if_neg hs] at h
    have h1 := List.take_subset lim _ h
    rw [sortByDateDesc_mem] at h1
    rcases searchLoop_mem _ _ _ _ _ _ _ _ h1 with h2 | ⟨fc, hfc, he⟩
    · simp at h2
    · exact ⟨fc, List.mem_of_mem_filter hfc, he⟩

theorem processFile_some_elim (q u : Option String) (f t : Option DateTime)
    (fn c : String) (r : SearchResult) (h : processFile q u f t fn c = some r) :
    r = mkResult fn c ∧ dateExcluded f t (parseFilenameDate fn) = false ∧
    htmlSkip q fn = false ∧ querySkip q c = false ∧ userSkip u fn c = false := by
  unfold processFile at h
  by_cases h1 : dateExcluded f t (parseFilenameDate fn) = true
  · rw [if_pos h1] at h
    exact absurd h (by simp)
  · rw [if_neg h1] at h
    by_cases h2 : htmlSkip q fn = true
    · rw [if_pos h2] at h
      exact absurd h (by simp)
    · rw [if_neg h2] at h
      by_cases h3 : querySkip q c = true
      · rw [if_pos h3] at h
        exact absurd h (by simp)
      · rw [if_neg h3] at h
        by_cases h4 : userSkip u fn c = true
        · rw [if_pos h4] at h
          exact absurd h (by simp)
        · rw [if_neg h4] at h
          exact ⟨(Option.some.inj h).symm, Bool.eq_false_iff.mpr h1,
            Bool.eq_false_iff.mpr h2, Bool.eq_false_iff.mpr h3, Bool.eq_false_iff.mpr h4⟩

theorem parseCompactDateTime_valid (s : String) (d : DateTime)
    (h : parseCompactDateTime s = some d) : validDateTime d = true := by
  unfold parseCompactDateTime at h
  split at h
  · split at h
    · dsimp only at h
      split at h
      · rename_i hv
        rw [Option.some.inj h] at hv
        exact hv
      · exact absurd h (by simp)
    · exact absurd h (by simp)
  · exact absurd h (by simp)

theorem parseFilenameDate_valid (fn : String) (d : DateTime)
    (h : parseFilenameDate fn = some d) : validDateTime d = true := by
  unfold parseFilenameDate at h
  split at h
  · exact absurd h (by simp)
  · exact parseCompactDateTime_valid _ _ h

theorem days_in_month_le (y m : Nat) : days_in_month y m ≤ 31 := by
  unfold days_in_month
  split_ifs <;> omega

theorem validDateTime_bounds (d : DateTime) (h : validDateTime d = true) :
    1 ≤ d.month ∧ d.month ≤ 12 ∧ 1 ≤ d.day ∧ d.day ≤ 31 ∧ d.hour ≤ 23 ∧
      d.minute ≤ 59 ∧ d.second ≤ 59 := by
  unfold validDateTime at h
  simp only [Bool.and_eq_true, decide_eq_true_eq] at h
  obtain ⟨⟨⟨⟨⟨⟨⟨-, hm1⟩, hm2⟩, hd1⟩, hd2⟩, hh⟩, hmi⟩, hs⟩ := h
  exact ⟨hm1, hm2, hd1, le_trans hd2 (days_in_month_le _ _), hh, hmi, hs⟩

theorem key_jan1_range (d : DateTime) (hv : validDateTime d = true)
    (h : dateExcluded (some ⟨2024, 1, 1, 0, 0, 0⟩) (some ⟨2024, 1, 1, 23, 59, 59⟩)
      (some d) = false) :
    d.year = 2024 ∧ d.month = 1 ∧ d.day = 1 := by
  obtain ⟨hm1, hm2, hd1, hd2, hh, hmi, hs⟩ := validDateTime_bounds d hv
  unfold dateExcluded at h
  simp only [Bool.or_eq_false_iff, decide_eq_false_iff_not, not_lt, DateTime.key] at h
  omega

theorem not_endsWith_html_and_txt (fn : String) :
    ¬(strEndsWith ".html" fn = true ∧ strEndsWith ".txt" fn = true) := by
  rintro ⟨h1, h2⟩
  unfold strEndsWith at h1 h2
  rw [List.isSuffixOf_iff_suffix] at h1 h2
  have r1 := List.reverse_prefix.mpr h1
  have r2 := List.reverse_prefix.mpr h2
  have e1 : (".html".data).reverse = 'l' :: ['m', 't', 'h', '.'] := by decide
  have e2 : (".txt".data).reverse = 't' :: ['x', 't', '.'] := by decide
  rw [e1] at r1
  rw [e2] at r2
  cases hrev : fn.data.reverse with
  | nil =>
      rw [hrev] at r1
      rw [List.prefix_nil] at r1
      exact absurd r1 (by decide)
  | cons ch cs =>
      rw [hrev] at r1 r2
      rw [List.cons_prefix_cons] at r1 r2
      rw [← r1.1] at r2
      exact absurd r2.1 (by decide)

/-- C6 counterexample: a styled file whose filename yields no parsable date
is not returned by a search that supplies no date filter (and no other
filter): with no truthy query, every `.html` file is skipped outright; and
a plain-text file with no parsable filename date is returned by the
`2024-01-01`-bounded search even though it has no filename-derived date in
that range. -/
theorem c6_counterexample :
    (parseFilenameDate "transcript.html" = none ∧
      search_transcripts [("transcript.html", "hello")] none none none none 50 = []) ∧
    (parseFilenameDate "notes.txt" = none ∧
      (search_transcripts [("notes.txt", "hi")] none none (some "2024-01-01")
        (some "2024-01-01") 50).map SearchResult.filename = ["notes.txt"]) := by
  decide

/-- C6 (amended): for a search with `dateFrom = dateTo = "2024-01-01"`,
every returned result whose filename parses to a date has that date on
2024-01-01, i.e. within 00:00:00-23:59:59 of that day; a file whose
filename fails to parse to a date is never excluded by the date-filter step
— its per-file processing is independent of the date parameters; and a
lone plain-text file with unparseable filename passing no other filter is
returned when no date filter is supplied.  (Such a file is not returned
unconditionally: a styled file is skipped whenever no query is supplied,
and a dateless result collected alongside other results makes the final
date sort raise, discarding all results — see the counterexample.) -/
theorem search_date_filter_spec :
    (∀ (files : List (String × String)) (q u : Option String) (lim : Nat)
      (r : SearchResult) (d : DateTime),
      r ∈ search_transcripts files q u (some "2024-01-01") (some "2024-01-01") lim →
      parseFilenameDate r.filename = some d →
      d.year = 2024 ∧ d.month = 1 ∧ d.day = 1) ∧
    (∀ (q u : Option String) (f1 t1 f2 t2 : Option DateTime) (fn c : String),
      parseFilenameDate fn = none →
      processFile q u f1 t1 fn c = processFile q u f2 t2 fn c) ∧
    (∀ (fn c : String) (lim : Nat),
      strEndsWith ".txt" fn = true → parseFilenameDate fn = none → 1 ≤ lim →
      search_transcripts [(fn, c)] none none none none lim = [mkResult fn c]) := by
  refine ⟨?_, ?_, ?_⟩
  · intro files q u lim r d hmem hparse
    obtain ⟨fc, hfc, hp⟩ := search_transcripts_mem files q u (some "2024-01-01")
      (some "2024-01-01") lim r hmem
    obtain ⟨hr, hdate, -, -, -⟩ := processFile_some_elim _ _ _ _ _ _ _ hp
    have hfn : r.filename = fc.1 := by
      rw [hr]
      rfl
    rw [hfn] at hparse
    rw [hparse] at hdate
    have hfrom : parseFromDate (some "2024-01-01") = some ⟨2024, 1, 1, 0, 0, 0⟩ := by
      decide
    have hto : parseToDate (some "2024-01-01") = some ⟨2024, 1, 1, 23, 59, 59⟩ := by
      decide
    rw [hfrom, hto] at hdate
    exact key_jan1_range d (parseFilenameDate_valid _ _ hparse) hdate
  · intro q u f1 t1 f2 t2 fn c hparse
    unfold processFile
    rw [hparse]
    rfl
  · intro fn c lim htxt hparse hlim
    have hhtml : strEndsWith ".html" fn = false := by
      by_cases hc : strEndsWith ".html" fn = true
      · exact absurd ⟨hc, htxt⟩ (not_endsWith_html_and_txt fn)
      · exact Bool.eq_false_iff.mpr hc
    have hpf : processFile none none (parseFromDate none) (parseToDate none) fn c
        = some (mkResult fn c) := by
      unfold processFile
      rw [hparse]
      simp [dateExcluded, htmlSkip, querySkip, userSkip, hhtml, optTruthy]
    unfold search_transcripts
    have hlist : listingFilter [(fn, c)] = [(fn, c)] := by
      simp [listingFilter, htxt]
    rw [hlist]
    unfold searchLoop
    rw [hpf]
    dsimp only
    have hcollect : (if (([] : List SearchResult) ++ [mkResult fn c]).length ≥ lim then
        ([] : List SearchResult) ++ [mkResult fn c]
        else searchLoop none none (parseFromDate none) (parseToDate none) lim []
          (([] : List SearchResult) ++ [mkResult fn c])) = [mkResult fn c] := by
      by_cases hl : (([] : List SearchResult) ++ [mkResult fn c]).length ≥ lim
      · rw [if_pos hl]
        rfl
      · rw [if_neg hl]
        rfl
    rw [hcollect]
    unfold searchFinish
    rw [if_neg (by simp [sortRaises])]
    show (sortByDateDesc [mkResult fn c]).take lim = [mkResult fn c]
    have hsort : sortByDateDesc [mkResult fn c] = [mkResult fn c] := rfl
    rw [hsort]
    cases lim with
    | zero => omega
    | succ n => simp

/-- C6 (amended) witness: the range conclusion at a returned dated file, the
date-parameter independence at an unparsed filename, and the lone `.txt`
return evaluated concretely. -/
theorem search_date_filter_spec_witness :
    ((2024 : Nat) = 2024 ∧ (1 : Nat) = 1 ∧ (1 : Nat) = 1) ∧
    processFile none none (some ⟨2024, 1, 1, 0, 0, 0⟩) (some ⟨2024, 1, 1, 23, 59, 59⟩)
        "notes.txt" "hi" = processFile none none none none "notes.txt" "hi" ∧
    search_transcripts [("notes.txt", "hi")] none none none none 50 =
      [mkResult "notes.txt" "hi"] :=
  ⟨search_date_filter_spec.1 [("transcript_9_20240101_150000.txt", "x")] none none 50
      (mkResult "transcript_9_20240101_150000.txt" "x") ⟨2024, 1, 1, 15, 0, 0⟩
      (by decide) (by decide),
    search_date_filter_spec.2.1 none none (some ⟨2024, 1, 1, 0, 0, 0⟩)
      (some ⟨2024, 1, 1, 23, 59, 59⟩) none none "notes.txt" "hi" (by decide),
    search_date_filter_spec.2.2 "notes.txt" "hi" 50 (by decide) (by decide) (by decide)⟩

/-- C7 counterexample: the author filter is not a timestamp-prefixed-
username match: the plain-text content `"alice: hi"` contains no
timestamp-prefixed occurrence of the username, yet the search with author
filter `"alice"` returns the file, because the bare-username fallback
pattern matched. -/
theorem c7_counterexample :
    searchTimestampUserPattern "alice".data "alice: hi".data = false ∧
    (search_transcripts [("transcript_1_20240101_120000.txt", "alice: hi")] none
      (some "alice") none none 50).map SearchResult.filename =
      ["transcript_1_20240101_120000.txt"] := by
  decide

/-- C7 (amended): the author filter applies only to plain-text documents —
the per-file processing of a styled (`.html`) document is independent of
the author parameter, so styled documents are excluded from author
filtering for every search that supplies an author filter; and a `.txt`
file surviving a search with a truthy author filter has content matched by
the timestamp-prefixed-username pattern or by the bare username-before-
colon fallback pattern. -/
theorem author_filter_spec :
    (∀ (q : Option String) (uu : String) (f t : Option DateTime) (fn c : String),
      strEndsWith ".html" fn = true →
      processFile q (some uu) f t fn c = processFile q none f t fn c) ∧
    (∀ (q : Option String) (uu : String) (f t : Option DateTime) (fn c : String)
      (r : SearchResult),
      strEndsWith ".txt" fn = true → uu.data.isEmpty = false →
      processFile q (some uu) f t fn c = some r →
      searchTimestampUserPattern uu.data c.data = true
        ∨ searchUserPattern uu.data c.data = true) := by
  constructor
  · intro q uu f t fn c hhtml
    have htxt : strEndsWith ".txt" fn = false := by
      by_cases hc : strEndsWith ".txt" fn = true
      · exact absurd ⟨hhtml, hc⟩ (not_endsWith_html_and_txt fn)
      · exact Bool.eq_false_iff.mpr hc
    unfold processFile
    have h1 : userSkip (some uu) fn c = false := by
      simp [userSkip, htxt]
    have h2 : userSkip none fn c = false := rfl
    rw [h1, h2]
  · intro q uu f t fn c r htxt htruthy hp
    obtain ⟨-, -, -, -, huser⟩ := processFile_some_elim _ _ _ _ _ _ _ hp
    simp only [userSkip] at huser
    have hopt : optTruthy (some uu) = true := by
      simp [optTruthy, htruthy]
    rw [hopt, htxt] at huser
    simp only [Bool.true_and, Bool.not_eq_false'] at huser
    unfold userFilterPasses at huser
    rw [Bool.or_eq_true] at huser
    exact huser

/-- C7 (amended) witness: author-parameter independence for a styled file
evaluated concretely, and the pattern disjunction at the content
`"alice: hi"`. -/
theorem author_filter_spec_witness :
    processFile (some "needle") (some "alice") none none "a_20240101_120000.html"
        "needle x" =
      processFile (some "needle") none none none "a_20240101_120000.html" "needle x" ∧
    (searchTimestampUserPattern "alice".data "alice: hi".data = true
      ∨ searchUserPattern "alice".data "alice: hi".data = true) :=
  ⟨author_filter_spec.1 (some "needle") "alice" none none "a_20240101_120000.html"
      "needle x" (by decide),
    author_filter_spec.2 none "alice" none none "transcript_1_20240101_120000.txt"
      "alice: hi" (mkResult "transcript_1_20240101_120000.txt" "alice: hi")
      (by decide) (by decide) (by decide)⟩
